import Mathlib

/-!
Verification of the webhook helper (signature check plus event dispatch).

The embedding models `webhook_helper.py`:
* bytes are `List Nat` (each entry a byte value),
* strings are `List Char`,
* `hmac.new(secret, msg=body, digestmod=hashlib.sha1).hexdigest()` is a full
  executable HMAC-SHA1 over the byte lists, hex-encoded lowercase,
* `str.split(sep)` is `pySplitEq` (Python splits on every occurrence of the
  separator; unpacking into two names raises `ValueError` unless the result
  has exactly two parts),
* `hmac.compare_digest` is `compare_digest`, a comparison that scans the whole
  zipped input and counts its character comparisons in `compareSteps`,
* the module-level `defaultdict(list)` registry is an association list where a
  lookup of a missing key appends that key with an empty handler list,
* JSON values handled by the dispatcher are the inductive `JVal`.
-/

/-- Reduce to a 32-bit word, as Python's HMAC/SHA1 arithmetic does modulo 2^32. -/
def w32 (x : Nat) : Nat := x % 4294967296

/-- Rotate a 32-bit word left by `n` bits. -/
def rotl32 (n x : Nat) : Nat := ((x <<< n) % 4294967296) ||| (x >>> (32 - n))

/-- Big-endian byte encoding of `x` in exactly `n` bytes. -/
def beBytes : Nat → Nat → List Nat
  | 0, _ => []
  | n + 1, x => beBytes n (x / 256) ++ [x % 256]

/-- SHA-1 message padding: append 0x80, zeros to 56 mod 64, then the 64-bit
bit length, big-endian. -/
def sha1Pad (msg : List Nat) : List Nat :=
  let l := msg.length
  let k := (120 - (l + 1) % 64) % 64
  msg ++ [128] ++ List.replicate k 0 ++ beBytes 8 (8 * l)

/-- Group bytes into big-endian 32-bit words. -/
def bytesToWords : List Nat → List Nat
  | b0 :: b1 :: b2 :: b3 :: rest =>
      (((b0 % 256) * 256 + b1 % 256) * 256 * 256 + (b2 % 256) * 256 + b3 % 256)
        :: bytesToWords rest
  | _ => []

/-- Extend the 16-word block to the 80-word SHA-1 message schedule, one word
per step. -/
def sha1Sched (ws : List Nat) : Nat → List Nat
  | 0 => ws
  | i + 1 =>
      let n := ws.length
      sha1Sched (ws ++ [rotl32 1 (((ws.getD (n - 3) 0) ^^^ (ws.getD (n - 8) 0))
        ^^^ ((ws.getD (n - 14) 0) ^^^ (ws.getD (n - 16) 0)))]) i

/-- The SHA-1 round function for round `t`. -/
def sha1F (t b c d : Nat) : Nat :=
  if t < 20 then (b &&& c) ||| ((b ^^^ 4294967295) &&& d)
  else if t < 40 then (b ^^^ c) ^^^ d
  else if t < 60 then ((b &&& c) ||| (b &&& d)) ||| (c &&& d)
  else (b ^^^ c) ^^^ d

/-- The SHA-1 round constant for round `t`. -/
def sha1K (t : Nat) : Nat :=
  if t < 20 then 1518500249
  else if t < 40 then 1859775393
  else if t < 60 then 2400959708
  else 3395469782

/-- Run the 80 SHA-1 rounds over the message schedule. -/
def sha1Rounds : List Nat → Nat → Nat × Nat × Nat × Nat × Nat → Nat × Nat × Nat × Nat × Nat
  | [], _, st => st
  | wt :: ws, t, (a, b, c, d, e) =>
      let temp := w32 (rotl32 5 a + sha1F t b c d + e + sha1K t + wt)
      sha1Rounds ws (t + 1) (temp, a, rotl32 30 b, c, d)

/-- Compress one 64-byte block into the running hash state. -/
def sha1Block (h : Nat × Nat × Nat × Nat × Nat) (block : List Nat) :
    Nat × Nat × Nat × Nat × Nat :=
  let ws := sha1Sched (bytesToWords block) 64
  match sha1Rounds ws 0 h with
  | (a, b, c, d, e) =>
      (w32 (h.1 + a), w32 (h.2.1 + b), w32 (h.2.2.1 + c),
       w32 (h.2.2.2.1 + d), w32 (h.2.2.2.2 + e))

/-- Split a byte list into 64-byte chunks, structurally on a fuel bound. -/
def chunks64Go : Nat → List Nat → List (List Nat)
  | _, [] => []
  | 0, l => [l]
  | n + 1, l => l.take 64 :: chunks64Go n (l.drop 64)

/-- Split a byte list into 64-byte chunks. -/
def chunks64 (l : List Nat) : List (List Nat) := chunks64Go l.length l

/-- SHA-1 of a byte list, as `hashlib.sha1(msg).digest()`. -/
def sha1 (msg : List Nat) : List Nat :=
  match (chunks64 (sha1Pad msg)).foldl sha1Block
      (1732584193, 4023233417, 2562383102, 271733878, 3285377520) with
  | (a, b, c, d, e) =>
      beBytes 4 a ++ beBytes 4 b ++ beBytes 4 c ++ beBytes 4 d ++ beBytes 4 e

/-- HMAC-SHA1 of a message under a key, as `hmac.new(key, msg, hashlib.sha1)`. -/
def hmacSha1 (key msg : List Nat) : List Nat :=
  let k0 := if 64 < key.length then sha1 key else key
  let k := k0 ++ List.replicate (64 - k0.length) 0
  let ipad := k.map (fun b => b ^^^ 54)
  let opad := k.map (fun b => b ^^^ 92)
  sha1 (opad ++ sha1 (ipad ++ msg))

/-- One lowercase hex digit. -/
def hexDigit (n : Nat) : Char :=
  if n < 10 then Char.ofNat (48 + n) else Char.ofNat (87 + n)

/-- Two lowercase hex digits of one byte. -/
def hexByte (b : Nat) : List Char := [hexDigit (b / 16 % 16), hexDigit (b % 16)]

/-- Lowercase hex encoding of a byte list, as `.hexdigest()`. -/
def hexOfBytes (bs : List Nat) : List Char := bs.flatMap hexByte

/-- The sixteen lowercase hex characters. -/
def hexChars : List Char := "0123456789abcdef".data

/-- The lowercase hex HMAC-SHA1 digest that `check_signature` computes as
`body_digest`. -/
def hmacSha1Hex (secret body : List Nat) : List Char :=
  hexOfBytes (hmacSha1 secret body)

/-- Python `str.split(sep)` for a one-character separator: splits at every
occurrence. -/
def pySplitEq : List Char → List (List Char)
  | [] => [[]]
  | c :: cs =>
      if c = '=' then [] :: pySplitEq cs
      else
        match pySplitEq cs with
        | [] => [[c]]
        | p :: ps => (c :: p) :: ps

/-- Scan of `hmac.compare_digest`: visits every zipped pair, accumulating the
mismatch flag and counting the comparisons performed. -/
def ctScan : List (Char × Char) → Bool × Nat
  | [] => (false, 0)
  | p :: l => ((p.1 != p.2) || (ctScan l).1, (ctScan l).2 + 1)

/-- `hmac.compare_digest` on strings: equal lengths and no mismatching pair.
The scan does not stop at the first mismatch. -/
def compare_digest (a b : List Char) : Bool :=
  (a.length == b.length) && !(ctScan (a.zip b)).1

/-- The number of character comparisons `compare_digest` performs. -/
def compareSteps (a b : List Char) : Nat := (ctScan (a.zip b)).2

/-- The failures `check_signature` raises (all `ValueError` in the source):
the missing-header message, the tuple-unpacking failure of
`header_signature.split('=')`, the unsupported-algorithm message, and the
digest-mismatch message. -/
inductive CheckErr where
  | noHeader : CheckErr
  | unpackError : CheckErr
  | unsupportedAlgorithm : List Char → CheckErr
  | signatureMismatch : CheckErr
deriving DecidableEq, Repr

deriving instance DecidableEq for Except

/-- The literal string constant used for the algorithm comparison. -/
def sha1Lit : List Char := ['s', 'h', 'a', '1']

/-- `check_signature(secret, header_signature, request_body)` from
`webhook_helper.py`. -/
def check_signature (secret : List Nat) (header_signature : List Char)
    (request_body : List Nat) : Except CheckErr Bool :=
  if header_signature = [] then .error .noHeader
  else
    match pySplitEq header_signature with
    | [algorithm, signature_digest] =>
        if algorithm ≠ sha1Lit then .error (.unsupportedAlgorithm algorithm)
        else
          let body_digest := hmacSha1Hex secret request_body
          if compare_digest body_digest signature_digest then .ok true
          else .error .signatureMismatch
    | _ => .error .unpackError

/-! ## Event dispatcher -/

/-- JSON-like values: handler payloads and results (`request.get_json()` data
and the dicts handlers return). -/
inductive JVal where
  | jnull : JVal
  | jbool : Bool → JVal
  | jnum : Int → JVal
  | jstr : String → JVal
  | jarr : List JVal → JVal
  | jobj : List (String × JVal) → JVal

/-- A registered webhook handler: gets the parsed JSON payload and returns a
response value or `None`. -/
abbrev Handler : Type := JVal → Option JVal

/-- The module-level `_web_hook_event_map = defaultdict(list)`: an ordered
association list from event names to handler lists, in insertion order. -/
abbrev Registry : Type := List (String × List Handler)

/-- Plain association-list lookup (`dict` lookup without the default). -/
def lookupA : Registry → String → Option (List Handler)
  | [], _ => none
  | (k, v) :: rest, e => if k = e then some v else lookupA rest e

/-- `defaultdict(list).__getitem__`: a hit returns the stored list and leaves
the dict alone; a miss inserts the key with a fresh empty list and returns
that list. Returns the list together with the updated dict. -/
def ddGet (m : Registry) (e : String) : List Handler × Registry :=
  match lookupA m e with
  | some v => (v, m)
  | none => ([], m ++ [(e, [])])

/-- The `listen(event)` decorator applied to `f`:
`_web_hook_event_map[event].append(f)`. -/
def listen (event : String) (f : Handler) (m : Registry) : Registry :=
  match lookupA m event with
  | some _ => m.map fun p => if p.1 = event then (p.1, p.2 ++ [f]) else p
  | none => m ++ [(event, [f])]

/-- The part of the request `process` consumes: the optional
`X-GitHub-Event` header and the parsed JSON body. -/
structure Request where
  eventHeader : Option String
  payload : JVal

/-- The default acknowledgement `{'status': 'OK'}`. -/
def okAck : JVal := .jobj [("status", .jstr "OK")]

/-- The `for function in functions` loop of `process`: call each handler in
order, returning the first result that `is not None`. -/
def runFirst : List Handler → JVal → Option JVal
  | [], _ => none
  | f :: rest, d =>
      match f d with
      | some r => some r
      | none => runFirst rest d

/-- The same loop, also counting how many handlers were invoked. -/
def runFirstCount : List Handler → JVal → Option JVal × Nat
  | [], _ => (none, 0)
  | f :: rest, d =>
      match f d with
      | some r => (some r, 1)
      | none => ((runFirstCount rest d).1, (runFirstCount rest d).2 + 1)

/-- `process(request)` from `webhook_helper.py`, with the registry threaded
explicitly: returns the response value and the registry as it stands after
the `_web_hook_event_map[event]` lookup. -/
def process (m : Registry) (req : Request) : JVal × Registry :=
  let event := req.eventHeader.getD "ping"
  let fm := ddGet m event
  let data := req.payload
  match runFirst fm.1 data with
  | some r => (r, fm.2)
  | none => (okAck, fm.2)

/-! ## Concrete fixtures used by witnesses -/

/-- Handler that always declines (returns `None`). -/
def declineHandler : Handler := fun _ => none

/-- Handler that answers `{"x": 1}`. -/
def answerHandler : Handler := fun _ => some (.jobj [("x", .jnum 1)])

/-- Handler that would answer `"LATE"` if it were ever invoked. -/
def lateHandler : Handler := fun _ => some (.jstr "LATE")

/-- A registry with the three example handlers registered for `"push"`. -/
def pushReg : Registry := [("push", [declineHandler, answerHandler, lateHandler])]

/-- A registry that maps `"ping"` to no handlers. -/
def pingReg : Registry := [("ping", [])]

/-! ## Hex-encoding lemmas -/

theorem hexDigit_mem (n : Nat) (h : n < 16) : hexDigit n ∈ hexChars := by
  interval_cases n <;> decide

theorem mem_hexByte {c : Char} {b : Nat} (h : c ∈ hexByte b) : c ∈ hexChars := by
  simp only [hexByte, List.mem_cons, List.not_mem_nil, or_false] at h
  rcases h with h | h
  · exact h ▸ hexDigit_mem _ (Nat.mod_lt _ (by omega))
  · exact h ▸ hexDigit_mem _ (Nat.mod_lt _ (by omega))

theorem mem_hexOfBytes {c : Char} {bs : List Nat} (h : c ∈ hexOfBytes bs) :
    c ∈ hexChars := by
  rw [hexOfBytes, List.mem_flatMap] at h
  obtain ⟨b, _, hc⟩ := h
  exact mem_hexByte hc

theorem eq_not_mem_hexOfBytes (bs : List Nat) : '=' ∉ hexOfBytes bs := by
  intro h
  have hmem := mem_hexOfBytes h
  have : '=' ∉ hexChars := by decide
  exact this hmem

theorem hmacSha1Hex_no_eq (secret body : List Nat) :
    '=' ∉ hmacSha1Hex secret body :=
  eq_not_mem_hexOfBytes _

/-! ## Python split lemmas -/

theorem pySplitEq_ne_nil (l : List Char) : pySplitEq l ≠ [] := by
  cases l with
  | nil => simp [pySplitEq]
  | cons c cs =>
    by_cases hc : c = '='
    · simp [pySplitEq, hc]
    · simp only [pySplitEq, if_neg hc]
      cases pySplitEq cs <;> simp

theorem pySplitEq_no_sep {l : List Char} (h : '=' ∉ l) : pySplitEq l = [l] := by
  induction l with
  | nil => rfl
  | cons c cs ih =>
    have hc : c ≠ '=' := fun e => h (e ▸ List.mem_cons_self c cs)
    have hcs : '=' ∉ cs := fun hm => h (List.mem_cons_of_mem c hm)
    simp only [pySplitEq, if_neg hc, ih hcs]

theorem pySplitEq_append {a : List Char} (b : List Char) (h : '=' ∉ a) :
    pySplitEq (a ++ '=' :: b) = a :: pySplitEq b := by
  induction a with
  | nil => simp [pySplitEq]
  | cons c cs ih =>
    have hc : c ≠ '=' := fun e => h (e ▸ List.mem_cons_self c cs)
    have hcs : '=' ∉ cs := fun hm => h (List.mem_cons_of_mem c hm)
    simp only [List.cons_append, pySplitEq, if_neg hc]
    rw [show cs.append ('=' :: b) = cs ++ '=' :: b from rfl, ih hcs]

theorem pySplitEq_length (l : List Char) :
    (pySplitEq l).length = l.count '=' + 1 := by
  induction l with
  | nil => rfl
  | cons c cs ih =>
    by_cases hc : c = '='
    · subst hc
      simp [pySplitEq, List.count_cons, ih]
    · obtain ⟨p, ps, hp⟩ := List.exists_cons_of_ne_nil (pySplitEq_ne_nil cs)
      rw [hp] at ih
      simp only [pySplitEq, if_neg hc, hp, List.length_cons, List.count_cons] at ih ⊢
      simp [hc]
      omega

/-! ## Constant-time comparison lemmas -/

theorem ctScan_snd (l : List (Char × Char)) : (ctScan l).2 = l.length := by
  induction l with
  | nil => rfl
  | cons p l ih => simp [ctScan, ih]

theorem compareSteps_eq (a b : List Char) :
    compareSteps a b = min a.length b.length := by
  rw [compareSteps, ctScan_snd, List.length_zip]

theorem compare_digest_eq_true_iff (a b : List Char) :
    compare_digest a b = true ↔ a = b := by
  induction a generalizing b with
  | nil =>
    cases b with
    | nil => simp [compare_digest, ctScan]
    | cons y ys => simp [compare_digest, ctScan]
  | cons x xs ih =>
    cases b with
    | nil => simp [compare_digest, ctScan]
    | cons y ys =>
      simp only [compare_digest, List.zip_cons_cons, ctScan, List.length_cons,
        Bool.and_eq_true, Bool.not_eq_true', Bool.or_eq_false_iff, beq_iff_eq,
        bne_eq_false_iff_eq, List.cons.injEq] at ih ⊢
      constructor
      · rintro ⟨hlen, hxy, hsc⟩
        exact ⟨hxy, (ih ys).mp ⟨by omega, hsc⟩⟩
      · rintro ⟨hxy, hxs⟩
        obtain ⟨h1, h2⟩ := (ih ys).mpr hxs
        exact ⟨by omega, hxy, h2⟩

/-! ## check_signature structure lemmas -/

theorem check_parsed (secret body : List Nat) (a d : List Char)
    (ha : '=' ∉ a) (hd : '=' ∉ d) :
    check_signature secret (a ++ '=' :: d) body =
      if a = sha1Lit then
        (if compare_digest (hmacSha1Hex secret body) d then .ok true
         else .error .signatureMismatch)
      else .error (.unsupportedAlgorithm a) := by
  have hne : a ++ '=' :: d ≠ [] := by
    intro h
    have := congrArg List.length h
    simp at this
  unfold check_signature
  rw [if_neg hne, pySplitEq_append d ha, pySplitEq_no_sep hd]
  by_cases hA : a = sha1Lit
  · simp [hA]
  · simp [hA]

/-! ## Dispatcher lemmas -/

theorem runFirst_none_of_all_none (fs : List Handler) (d : JVal)
    (h : ∀ f ∈ fs, f d = none) : runFirst fs d = none := by
  induction fs with
  | nil => rfl
  | cons f rest ih =>
    have hf := h f (List.mem_cons_self f rest)
    simp only [runFirst, hf]
    exact ih fun g hg => h g (List.mem_cons_of_mem f hg)

theorem runFirst_append_of_none (pre fs : List Handler) (d : JVal)
    (h : ∀ g ∈ pre, g d = none) : runFirst (pre ++ fs) d = runFirst fs d := by
  induction pre with
  | nil => rfl
  | cons g gs ih =>
    have hg := h g (List.mem_cons_self g gs)
    simp only [List.cons_append, runFirst, hg]
    exact ih fun g' hg' => h g' (List.mem_cons_of_mem g hg')

theorem runFirstCount_append_of_none (pre fs : List Handler) (d : JVal)
    (h : ∀ g ∈ pre, g d = none) :
    (runFirstCount (pre ++ fs) d).2 = pre.length + (runFirstCount fs d).2 := by
  induction pre with
  | nil => simp
  | cons g gs ih =>
    have hg := h g (List.mem_cons_self g gs)
    simp only [List.cons_append, runFirstCount, hg, List.length_cons]
    rw [show gs.append fs = gs ++ fs from rfl,
      ih fun g' hg' => h g' (List.mem_cons_of_mem g hg')]
    omega

/-! ## Claim theorems -/

set_option maxRecDepth 200000

/-- C1: for every secret and every body, calling `check_signature` with the
header formed by prefixing the string sha1= to the lowercase hex HMAC-SHA1
of the body under that secret returns `ok true` and raises no failure. -/
theorem check_accepts_valid_signature (secret body : List Nat) :
    check_signature secret ("sha1=".data ++ hmacSha1Hex secret body) body =
      .ok true := by
  have hstep : ("sha1=".data ++ hmacSha1Hex secret body)
      = sha1Lit ++ '=' :: hmacSha1Hex secret body := rfl
  rw [hstep, check_parsed secret body sha1Lit _ (by decide)
    (hmacSha1Hex_no_eq secret body), if_pos rfl,
    if_pos ((compare_digest_eq_true_iff _ _).mpr rfl)]

/-- C2 counterexample: the header sha1=ab=cd does not proceed to the digest
comparison; `header_signature.split('=')` yields three parts, so unpacking
into two names raises a `ValueError` (modelled `unpackError`) before any
comparison happens. -/
theorem check_sha1_ab_cd_fails_unpack :
    check_signature [] "sha1=ab=cd".data [] = .error .unpackError ∧
    check_signature [] "sha1=ab=cd".data [] ≠ .error .signatureMismatch ∧
    check_signature [] "sha1=ab=cd".data [] ≠ .ok true := by
  refine ⟨by decide, by decide, by decide⟩

/-- C2 amended: for a non-empty header, `check_signature` fails with the
unpacking `ValueError` whenever the header does not contain exactly one
equals sign (in particular both when it contains none and when it contains
two or more, as in sha1=ab=cd); when it contains exactly one, the split
yields precisely the part before and the part after that separator. -/
theorem check_requires_exactly_one_eq (secret body : List Nat)
    (hdr : List Char) (h0 : hdr ≠ []) :
    (hdr.count '=' ≠ 1 → check_signature secret hdr body = .error .unpackError) ∧
    (∀ a d, '=' ∉ a → '=' ∉ d → hdr = a ++ '=' :: d → pySplitEq hdr = [a, d]) := by
  constructor
  · intro hcnt
    have hlen : (pySplitEq hdr).length ≠ 2 := by
      rw [pySplitEq_length]; omega
    unfold check_signature
    rw [if_neg h0]
    rcases hsp : pySplitEq hdr with _ | ⟨p, _ | ⟨q, _ | ⟨r, rest⟩⟩⟩
    · rfl
    · rfl
    · exfalso; apply hlen; rw [hsp]; rfl
    · rfl
  · intro a d ha hd he
    rw [he, pySplitEq_append d ha, pySplitEq_no_sep hd]

theorem check_requires_exactly_one_eq_witness :
    check_signature [] "nosep".data [] = .error .unpackError :=
  (check_requires_exactly_one_eq [] [] "nosep".data (by decide)).1 (by decide)

/-- C3: the digest comparison routine performs a number of character
comparisons that depends only on the two lengths, never on the position of
the first mismatching character, and it decides equality of the two digest
strings. -/
theorem compare_digest_constant_time (a b : List Char) :
    compareSteps a b = min a.length b.length ∧
    (compare_digest a b = true ↔ a = b) :=
  ⟨compareSteps_eq a b, compare_digest_eq_true_iff a b⟩

/-- C6 counterexample: the header md5=ab=cd has algorithm component md5,
which is not sha1, yet `check_signature` does not fail with
`unsupportedAlgorithm "md5"`: the split produces three parts and the
unpacking `ValueError` fires first. -/
theorem check_md5_ab_cd_not_unsupported :
    check_signature [] "md5=ab=cd".data [] ≠
      .error (.unsupportedAlgorithm "md5".data) ∧
    check_signature [] "md5=ab=cd".data [] = .error .unpackError := by
  refine ⟨by decide, by decide⟩

/-- C6 amended: for every secret and body, and every header with exactly one
equals sign (algorithm and digest components free of =), an algorithm
component other than sha1 makes `check_signature` fail with
`unsupportedAlgorithm` carrying that component, regardless of the digest
component. -/
theorem check_rejects_unsupported_algorithm (secret body : List Nat)
    (a d : List Char) (ha : '=' ∉ a) (hd : '=' ∉ d) (hA : a ≠ sha1Lit) :
    check_signature secret (a ++ '=' :: d) body =
      .error (.unsupportedAlgorithm a) := by
  rw [check_parsed secret body a d ha hd, if_neg hA]

theorem check_rejects_unsupported_algorithm_witness :
    check_signature [] ("md5".data ++ '=' :: "ab".data) [] =
      .error (.unsupportedAlgorithm "md5".data) :=
  check_rejects_unsupported_algorithm [] [] "md5".data "ab".data
    (by decide) (by decide) (by decide)

/-- C4: for every registered handler sequence split as pre ++ f :: post, if
every handler in pre returns `none` and f returns `some v`, then `process`
returns v and the invocation count stops at `pre.length + 1`: the handlers
in post are never invoked (the returned value is also independent of post,
which is universally quantified). -/
theorem process_short_circuits (m : Registry) (req : Request) (ev : String)
    (pre : List Handler) (f : Handler) (post : List Handler) (v : JVal)
    (hev : req.eventHeader = some ev)
    (hfs : lookupA m ev = some (pre ++ f :: post))
    (hpre : ∀ g ∈ pre, g req.payload = none)
    (hf : f req.payload = some v) :
    (process m req).1 = v ∧
    (runFirstCount (pre ++ f :: post) req.payload).2 = pre.length + 1 := by
  have h1 : runFirst (pre ++ f :: post) req.payload = some v := by
    rw [runFirst_append_of_none pre (f :: post) req.payload hpre]
    simp [runFirst, hf]
  constructor
  · simp [process, ddGet, hev, hfs, h1]
  · rw [runFirstCount_append_of_none pre (f :: post) req.payload hpre]
    simp [runFirstCount, hf]

theorem process_short_circuits_witness :
    (process pushReg ⟨some "push", .jnull⟩).1 = .jobj [("x", .jnum 1)] ∧
    (runFirstCount [declineHandler, answerHandler, lateHandler] JVal.jnull).2
      = 2 :=
  process_short_circuits pushReg ⟨some "push", .jnull⟩ "push"
    [declineHandler] answerHandler [lateHandler] (.jobj [("x", .jnum 1)])
    rfl (by simp [pushReg, lookupA])
    (by intro g hg; rw [List.mem_singleton] at hg; subst hg; rfl) rfl

/-- C5 counterexample: invoking `process` for an event name with no
registered handlers does change the registry mapping: starting from the
empty registry, the key set before the call is empty and after the call it
is exactly the looked-up event name, inserted by the
`defaultdict.__getitem__` in `_web_hook_event_map[event]`. -/
theorem process_inserts_unknown_key :
    (([] : Registry).map Prod.fst = ([] : List String)) ∧
    ((process ([] : Registry) ⟨some "unknown", .jnull⟩).2).map Prod.fst
      = ["unknown"] := by
  exact ⟨rfl, rfl⟩

/-- C5 amended: `process` leaves the registry unchanged whenever the looked-up
event name is already a key; when it is not, the only change is that the
event name is appended with an empty handler list — every existing entry,
key and handler list alike, is untouched in both cases. -/
theorem process_registry_effect (m : Registry) (req : Request) :
    ((lookupA m (req.eventHeader.getD "ping")).isSome = true →
      (process m req).2 = m) ∧
    (lookupA m (req.eventHeader.getD "ping") = none →
      (process m req).2 = m ++ [(req.eventHeader.getD "ping", [])]) := by
  constructor
  · intro h
    rcases ho : lookupA m (req.eventHeader.getD "ping") with _ | fs
    · rw [ho] at h; simp at h
    · cases hr : runFirst fs req.payload <;> simp [process, ddGet, ho, hr]
  · intro h
    simp [process, ddGet, h, runFirst]

theorem process_registry_effect_witness :
    (process pingReg ⟨none, .jnull⟩).2 = pingReg :=
  (process_registry_effect pingReg ⟨none, .jnull⟩).1
    (by simp [pingReg, lookupA, Option.getD])

/-- C7: for every secret and body, replacing the hex character at any single
position of the valid digest by a different hex character makes
`check_signature` fail with `signatureMismatch`. -/
theorem check_rejects_single_char_flip (secret body : List Nat) (i : Nat)
    (c : Char) (hi : i < (hmacSha1Hex secret body).length)
    (hc : c ∈ hexChars)
    (hne : (hmacSha1Hex secret body)[i]? ≠ some c) :
    check_signature secret
      ("sha1=".data ++ (hmacSha1Hex secret body).set i c) body =
      .error .signatureMismatch := by
  have hd' : '=' ∉ (hmacSha1Hex secret body).set i c := by
    intro hm
    rcases List.mem_or_eq_of_mem_set hm with h | h
    · exact hmacSha1Hex_no_eq secret body h
    · rw [← h] at hc
      exact absurd hc (by decide)
  have hstep : ("sha1=".data ++ (hmacSha1Hex secret body).set i c)
      = sha1Lit ++ '=' :: (hmacSha1Hex secret body).set i c := rfl
  rw [hstep, check_parsed secret body sha1Lit _ (by decide) hd', if_pos rfl,
    if_neg]
  rw [compare_digest_eq_true_iff]
  intro he
  have h2 := congrArg (fun l : List Char => l[i]?) he
  simp only [List.getElem?_set_self hi] at h2
  exact hne h2

theorem check_rejects_single_char_flip_witness :
    check_signature [] ("sha1=".data ++ (hmacSha1Hex [] []).set 0 '0') [] =
      .error .signatureMismatch :=
  check_rejects_single_char_flip [] [] 0 '0' (by decide) (by decide)
    (by decide)

/-- C8: for every registry and request, if every handler in the looked-up
handler list returns `none` on the payload (in particular when no handler
is registered for the event, so the list is empty), `process` returns the
default acknowledgement. -/
theorem process_returns_default_ack (m : Registry) (req : Request)
    (h : ∀ f ∈ (ddGet m (req.eventHeader.getD "ping")).1,
      f req.payload = none) :
    (process m req).1 = okAck := by
  have hr := runFirst_none_of_all_none _ req.payload h
  simp [process, hr]

theorem process_returns_default_ack_witness :
    (process ([] : Registry) ⟨some "unknown_event", .jnull⟩).1 = okAck :=
  process_returns_default_ack ([] : Registry) ⟨some "unknown_event", .jnull⟩
    (by intro f hf; simp [ddGet, lookupA] at hf)

/-- C9: a request with no event-name header is processed exactly as a
request naming the event ping: the whole result, response value and
registry state alike, coincides. -/
theorem process_defaults_to_ping (m : Registry) (payload : JVal) :
    process m ⟨none, payload⟩ = process m ⟨some "ping", payload⟩ := rfl

/-- C10: the digest comparison is case-sensitive: any presented digest
string whose character-wise lowercasing equals the computed digest but
which is not itself that all-lowercase digest (for example the correct
digest hex-encoded in uppercase, whenever the digest contains a letter)
makes `check_signature` fail with `signatureMismatch`. -/
theorem check_rejects_case_variant (secret body : List Nat) (u : List Char)
    (hl : u.map Char.toLower = hmacSha1Hex secret body)
    (hne : u ≠ hmacSha1Hex secret body) :
    check_signature secret ("sha1=".data ++ u) body =
      .error .signatureMismatch := by
  have hu : '=' ∉ u := by
    intro hm
    have h1 : Char.toLower '=' ∈ u.map Char.toLower :=
      List.mem_map_of_mem Char.toLower hm
    rw [hl] at h1
    unfold hmacSha1Hex at h1
    have h2 := mem_hexOfBytes h1
    exact absurd h2 (by decide)
  have hstep : ("sha1=".data ++ u) = sha1Lit ++ '=' :: u := rfl
  rw [hstep, check_parsed secret body sha1Lit u (by decide) hu, if_pos rfl,
    if_neg]
  rw [compare_digest_eq_true_iff]
  intro he
  exact hne he.symm

theorem check_rejects_case_variant_witness :
    check_signature []
      ("sha1=".data ++ "FBDB1D1B18AA6C08324B7D64B71FB76370690E1D".data) [] =
      .error .signatureMismatch :=
  check_rejects_case_variant [] []
    "FBDB1D1B18AA6C08324B7D64B71FB76370690E1D".data (by decide) (by decide)
